import Mathlib

/-!
# Café management system — barcode and loyalty core, verified

Shallow embedding of the EAN-13 barcode subsystem and the breakfast/coffee
loyalty counters of the café back-office (`database.py`, `app.py`), with
theorems checking the natural-language specification against the code.

Conventions:
* Python strings are embedded as `List Char`; `str.isdigit` on the ASCII
  digit strings this subsystem handles is `isDigitChar`.
* Functions that raise (`ValueError`) are embedded as `Option`-valued
  functions returning `none` on the raising paths.
* Machine integers do not overflow in this code (SQLite row ids and digit
  arithmetic); all arithmetic is over `Nat`, with `Int` where Python's
  signed integer semantics matter (the PNG column-to-module mapping).
-/

namespace CafeMgmt

/-- Numeric value of an ASCII digit character (Python `int(ch)` for `'0'..'9'`). -/
def charVal (c : Char) : Nat := c.toNat - 48

/-- ASCII digit character for a value `0..9` (Python decimal formatting). -/
def digitChar (d : Nat) : Char := Char.ofNat (48 + d)

/-- Python `str.isdigit` restricted to ASCII (`'0' ≤ c ≤ '9'`). -/
def isDigitChar (c : Char) : Bool := decide (48 ≤ c.toNat) && decide (c.toNat ≤ 57)

/-- Elements of a list at even indices 0,2,4,… (Python slice `l[::2]`). -/
def everyOther {α : Type} : List α → List α
  | [] => []
  | [a] => [a]
  | a :: _ :: t => a :: everyOther t

/-- `CafeDatabase._ean13_checksum` (`database.py`): check digit of a 12-digit
payload; digits at even 0-based indices are summed unweighted (`digits[::2]`),
digits at odd indices (`digits[1::2]`) are summed and weighted ×3. -/
def ean13_checksum (base12 : List Char) : Nat :=
  let digits := base12.map charVal
  let odd_sum := (everyOther digits).sum
  let even_sum := (everyOther (digits.drop 1)).sum
  let total := odd_sum + even_sum * 3
  (10 - total % 10) % 10

/-- `CafeDatabase._is_valid_ean13` (`database.py`): exactly 13 digit characters
and the last digit equals the checksum of the first 12. -/
def is_valid_ean13 (code : List Char) : Bool :=
  if code.length == 13 && code.all isDigitChar then
    ean13_checksum (code.take 12) == charVal (code.getLastD ' ')
  else
    false

/-- Decimal digit characters of `n`, most significant first (Python `str(n)`). -/
def decimalChars (n : Nat) : List Char :=
  if n = 0 then ['0'] else ((Nat.digits 10 n).map digitChar).reverse

/-- Left-pad a digit string with `'0'` to width `w` (Python format `:09d`
with `w = 9`; strings already at least `w` long are returned unchanged). -/
def zeroPad (w : Nat) (s : List Char) : List Char :=
  List.replicate (w - s.length) '0' ++ s

/-- `CafeDatabase._build_barcode` (`database.py`): payload is the fixed prefix
`"290"` followed by the client id formatted with `f"{client_id:09d}"`, and the
checksum digit is appended.  Note the Python format pads to *at least* 9
digits but never truncates; there is no error path in the source. -/
def build_barcode (client_id : Nat) : List Char :=
  let base12 := '2' :: '9' :: '0' :: zeroPad 9 (decimalChars client_id)
  base12 ++ [digitChar (ean13_checksum base12)]

/-- Read a digit string (most significant first) back as a number; used to
state that `build_barcode` embeds the client id recoverably. -/
def charsToNat (s : List Char) : Nat :=
  Nat.ofDigits 10 (s.map charVal).reverse

/-- The client id stored in digit positions 3..11 of a generated barcode. -/
def decodeClientId (code : List Char) : Nat :=
  charsToNat ((code.drop 3).take 9)

/-! ## Symbol encoder (`app.py`, `build_ean13_bits`)

The three per-digit 7-bit tables and the parity selector are Python dicts
keyed by the digit character; the embedding keys them by the digit's value
(`charVal`), which agrees on every ASCII digit string the guard admits. -/

/-- `l_codes` table of `build_ean13_bits`. -/
def l_codes (d : Nat) : List Char :=
  match d with
  | 0 => "0001101".toList
  | 1 => "0011001".toList
  | 2 => "0010011".toList
  | 3 => "0111101".toList
  | 4 => "0100011".toList
  | 5 => "0110001".toList
  | 6 => "0101111".toList
  | 7 => "0111011".toList
  | 8 => "0110111".toList
  | 9 => "0001011".toList
  | _ => []

/-- `g_codes` table of `build_ean13_bits`. -/
def g_codes (d : Nat) : List Char :=
  match d with
  | 0 => "0100111".toList
  | 1 => "0110011".toList
  | 2 => "0011011".toList
  | 3 => "0100001".toList
  | 4 => "0011101".toList
  | 5 => "0111001".toList
  | 6 => "0000101".toList
  | 7 => "0010001".toList
  | 8 => "0001001".toList
  | 9 => "0010111".toList
  | _ => []

/-- `r_codes` table of `build_ean13_bits`. -/
def r_codes (d : Nat) : List Char :=
  match d with
  | 0 => "1110010".toList
  | 1 => "1100110".toList
  | 2 => "1101100".toList
  | 3 => "1000010".toList
  | 4 => "1011100".toList
  | 5 => "1001110".toList
  | 6 => "1010000".toList
  | 7 => "1000100".toList
  | 8 => "1001000".toList
  | 9 => "1110100".toList
  | _ => []

/-- `parity` table of `build_ean13_bits`, keyed by the code's first digit. -/
def parityTable (d : Nat) : List Char :=
  match d with
  | 0 => "LLLLLL".toList
  | 1 => "LLGLGG".toList
  | 2 => "LLGGLG".toList
  | 3 => "LLGGGL".toList
  | 4 => "LGLLGG".toList
  | 5 => "LGGLLG".toList
  | 6 => "LGGGLL".toList
  | 7 => "LGLGLG".toList
  | 8 => "LGLGGL".toList
  | 9 => "LGGLGL".toList
  | _ => []

/-- `build_ean13_bits` (`app.py`): raises `ValueError` (here `none`) unless
the input is exactly 13 digit characters; otherwise emits the start guard,
six left digits encoded by the L or G table as selected by the parity
pattern of the first digit, the center guard, six right digits encoded by
the R table, and the end guard. -/
def build_ean13_bits (barcode_value : List Char) : Option (List Char) :=
  if barcode_value.length == 13 && barcode_value.all isDigitChar then
    let first := charVal (barcode_value.getD 0 ' ')
    let left_digits := (barcode_value.drop 1).take 6
    let right_digits := barcode_value.drop 7
    let pattern := parityTable first
    let left_bits :=
      (List.zipWith
        (fun p d => if p = 'L' then l_codes (charVal d) else g_codes (charVal d))
        pattern left_digits).flatten
    let right_bits := (right_digits.map (fun d => r_codes (charVal d))).flatten
    some ("101".toList ++ left_bits ++ "01010".toList ++ right_bits ++ "101".toList)
  else
    none

/-! ## Raster renderer (`app.py`, `generate_barcode_png`)

`zlib.compress` (level 9) and `zlib.crc32` are external primitives the
source calls; the embedding takes them as parameters, so every theorem
below holds for the real primitives. -/

/-- Big-endian 4-byte encoding (Python `struct.pack("!I", n)` for `n < 2³²`). -/
def be32 (n : Nat) : List Nat :=
  [n / 2 ^ 24 % 256, n / 2 ^ 16 % 256, n / 2 ^ 8 % 256, n % 256]

/-- The `png_chunk` helper of `generate_barcode_png`: big-endian payload
length, 4-byte type, payload, big-endian CRC32 over type + payload
(masked to 32 bits, Python `& 0xFFFFFFFF`). -/
def png_chunk (crc32 : List Nat → Nat) (chunk_type data : List Nat) : List Nat :=
  be32 data.length ++ chunk_type ++ data ++ be32 (crc32 (chunk_type ++ data) % 2 ^ 32)

/-- The 3 RGB bytes of one pixel of `generate_barcode_png`: black iff the
row is inside the bar band and the column maps into a 1-bit of the pattern
(`x // module - quiet`, computed in ℤ as in Python). -/
def pngPixel (bits : List Char) (y x : Nat) : List Nat :=
  let module := 4
  let quiet := 12
  let bar_top := 12
  let bar_height := 180
  let in_bar_y := decide (bar_top ≤ y) && decide (y < bar_top + bar_height)
  let module_x : Int := (x : Int) / module - quiet
  let is_black := in_bar_y && decide (0 ≤ module_x) &&
    decide (module_x < (bits.length : Int)) &&
    (bits.getD module_x.toNat ' ' == '1')
  let color := if is_black then 0 else 255
  [color, color, color]

/-- One scanline of `generate_barcode_png`: a filter byte 0 followed by the
3 RGB bytes of each of the `width = (len(bits) + 2*quiet) * module` columns. -/
def pngRow (bits : List Char) (y : Nat) : List Nat :=
  0 :: ((List.range ((bits.length + 12 * 2) * 4)).map (pngPixel bits y)).flatten

/-- The raw scanline buffer of `generate_barcode_png` (`b"".join(rows)`). -/
def pngScanlines (bits : List Char) : List Nat :=
  ((List.range 220).map (pngRow bits)).flatten

/-- ASCII bytes of the four chunk types and the PNG signature. -/
def ihdrType : List Nat := [0x49, 0x48, 0x44, 0x52]

def idatType : List Nat := [0x49, 0x44, 0x41, 0x54]

def iendType : List Nat := [0x49, 0x45, 0x4E, 0x44]

def pngSignature : List Nat := [0x89, 0x50, 0x4E, 0x47, 0x0D, 0x0A, 0x1A, 0x0A]

/-- `generate_barcode_png` (`app.py`): encode the code, rasterize the bit
pattern (module 4 px, quiet zone 12 modules, height 220, bar band rows
12..191), deflate the scanlines at level 9, and frame signature + IHDR +
IDAT + IEND.  Propagates the encoder's failure (`none`). -/
def generate_barcode_png (zlibCompress : List Nat → List Nat)
    (crc32 : List Nat → Nat) (barcode_value : List Char) : Option (List Nat) :=
  match build_ean13_bits barcode_value with
  | none => none
  | some bits =>
    let module := 4
    let quiet := 12
    let width := (bits.length + quiet * 2) * module
    let height := 220
    let raw := pngScanlines bits
    let compressed := zlibCompress raw
    let ihdr := be32 width ++ be32 height ++ [8, 2, 0, 0, 0]
    some (pngSignature ++ png_chunk crc32 ihdrType ihdr ++
      png_chunk crc32 idatType compressed ++ png_chunk crc32 iendType [])

/-! ## Loyalty storage model (`database.py`, `CafeDatabase`)

The visit tables are embedded as row lists in insertion order; SQLite's
`AUTOINCREMENT` is the explicit next-id counter.  Dates are the stored text
column; the `date=None → today()` default branch of the Python methods is
outside the embedding (the caller always passes the date here). -/

structure VisitRow where
  id : Nat
  client_id : Nat
  date : List Char
  is_free : Bool
  deriving DecidableEq

structure ClientRow where
  id : Nat
  name : List Char
  deriving DecidableEq

structure DBState where
  clients : List ClientRow
  breakfast_visits : List VisitRow
  coffee_visits : List VisitRow
  next_breakfast_id : Nat
  next_coffee_id : Nat
  deriving DecidableEq

/-- Result row shape of `get_client_breakfast_stats` (a Python dict with the
four keys `count_total`, `count_this_month`, `visits_until_free`,
`next_is_free`). -/
structure VisitStats where
  count_total : Nat
  count_this_month : Nat
  visits_until_free : Nat
  next_is_free : Bool
  deriving DecidableEq

/-- SQLite text comparison (byte-lexicographic `<=`), for the date filters. -/
def strLe : List Char → List Char → Bool
  | [], _ => true
  | _ :: _, [] => false
  | a :: as, b :: bs => if a = b then strLe as bs else decide (a < b)

/-- `get_breakfast_count_total`: `SELECT COUNT(*) FROM breakfast_visits
WHERE client_id = ?`. -/
def get_breakfast_count_total (db : DBState) (client_id : Nat) : Nat :=
  (db.breakfast_visits.filter (fun v => v.client_id == client_id)).length

/-- `add_breakfast_visit`: reads the client's total prior count, marks the
`(total+1)`-th visit free iff that ordinal is divisible by 7, inserts the
row, and returns `(lastrowid, is_free)` alongside the new state. -/
def add_breakfast_visit (db : DBState) (client_id : Nat) (date : List Char) :
    DBState × Nat × Bool :=
  let total_count := get_breakfast_count_total db client_id
  let next_number := total_count + 1
  let is_free := next_number % 7 == 0
  let visit_id := db.next_breakfast_id
  let row : VisitRow := ⟨visit_id, client_id, date, is_free⟩
  ({ db with
      breakfast_visits := db.breakfast_visits ++ [row],
      next_breakfast_id := visit_id + 1 },
    visit_id, is_free)

/-- `get_breakfast_visits`: inner join with `clients` (producing the client
name per row), optional client and inclusive date-range filters, ordered by
date descending. -/
def get_breakfast_visits (db : DBState) (client_id : Option Nat)
    (start_date end_date : Option (List Char)) : List (VisitRow × List Char) :=
  let joined := db.breakfast_visits.filterMap (fun v =>
    match db.clients.find? (fun c => c.id == v.client_id) with
    | some c => some (v, c.name)
    | none => none)
  let f1 := match client_id with
    | some cid => joined.filter (fun (p : VisitRow × List Char) => p.1.client_id == cid)
    | none => joined
  let f2 := match start_date with
    | some s => f1.filter (fun (p : VisitRow × List Char) => strLe s p.1.date)
    | none => f1
  let f3 := match end_date with
    | some e => f2.filter (fun (p : VisitRow × List Char) => strLe p.1.date e)
    | none => f2
  f3.mergeSort (fun a b => strLe b.1.date a.1.date)

/-- `get_client_breakfast_stats`: derived stats of the continuous 7-visit
cycle.  The source's `if visits_until_free == 7 and count > 0` branch
re-assigns the same value 7 and is kept verbatim (it is a no-op). -/
def get_client_breakfast_stats (db : DBState) (client_id : Nat) : VisitStats :=
  let count := get_breakfast_count_total db client_id
  let vuf := 7 - count % 7
  let visits_until_free := if vuf == 7 && decide (count > 0) then 7 else vuf
  { count_total := count
    count_this_month := count
    visits_until_free := visits_until_free
    next_is_free := count % 7 == 6 }

/-- Modelled from the spec: `add_coffee_visit` does not exist under `src/`
(only its callers in `app.py` do).  Per the spec the coffee loyalty counter
is an isolated per-client counter that behaves for coffee exactly as
`add_breakfast_visit` does for breakfasts, kept in its own table. -/
def add_coffee_visit (db : DBState) (client_id : Nat) (date : List Char) :
    DBState × Nat × Bool :=
  let total_count := (db.coffee_visits.filter (fun v => v.client_id == client_id)).length
  let next_number := total_count + 1
  let is_free := next_number % 7 == 0
  let visit_id := db.next_coffee_id
  let row : VisitRow := ⟨visit_id, client_id, date, is_free⟩
  ({ db with
      coffee_visits := db.coffee_visits ++ [row],
      next_coffee_id := visit_id + 1 },
    visit_id, is_free)

/-- Modelled from the spec: `get_coffee_visits` does not exist under `src/`;
it mirrors `get_breakfast_visits` on the coffee table. -/
def get_coffee_visits (db : DBState) (client_id : Option Nat)
    (start_date end_date : Option (List Char)) : List (VisitRow × List Char) :=
  let joined := db.coffee_visits.filterMap (fun v =>
    match db.clients.find? (fun c => c.id == v.client_id) with
    | some c => some (v, c.name)
    | none => none)
  let f1 := match client_id with
    | some cid => joined.filter (fun (p : VisitRow × List Char) => p.1.client_id == cid)
    | none => joined
  let f2 := match start_date with
    | some s => f1.filter (fun (p : VisitRow × List Char) => strLe s p.1.date)
    | none => f1
  let f3 := match end_date with
    | some e => f2.filter (fun (p : VisitRow × List Char) => strLe p.1.date e)
    | none => f2
  f3.mergeSort (fun a b => strLe b.1.date a.1.date)

/-- Modelled from the spec: `get_client_coffee_stats` does not exist under
`src/`; it mirrors `get_client_breakfast_stats` on the coffee counter. -/
def get_client_coffee_stats (db : DBState) (client_id : Nat) : VisitStats :=
  let count := (db.coffee_visits.filter (fun v => v.client_id == client_id)).length
  let vuf := 7 - count % 7
  let visits_until_free := if vuf == 7 && decide (count > 0) then 7 else vuf
  { count_total := count
    count_this_month := count
    visits_until_free := visits_until_free
    next_is_free := count % 7 == 6 }

/-- Exchange the breakfast and coffee tables (and their id counters); the
"exactly alike" half of the isolation claim is stated through it. -/
def swapCategories (db : DBState) : DBState :=
  { db with
      breakfast_visits := db.coffee_visits,
      coffee_visits := db.breakfast_visits,
      next_breakfast_id := db.next_coffee_id,
      next_coffee_id := db.next_breakfast_id }

/-- Free flags returned by a sequence of breakfast registrations for one
client, threading the state (used to state the 7-visit scenario). -/
def breakfast_free_flags (db : DBState) (client_id : Nat) :
    List (List Char) → List Bool
  | [] => []
  | d :: ds =>
    let r := add_breakfast_visit db client_id d
    r.2.2 :: breakfast_free_flags r.1 client_id ds

/-! ## General helper lemmas -/

theorem charVal_inj {a b : Char} (ha : isDigitChar a = true) (hb : isDigitChar b = true)
    (h : charVal a = charVal b) : a = b := by
  simp [isDigitChar] at ha hb
  have : a.toNat = b.toNat := by unfold charVal at h; omega
  calc a = Char.ofNat a.toNat := (Char.ofNat_toNat a).symm
    _ = Char.ofNat b.toNat := by rw [this]
    _ = b := Char.ofNat_toNat b

theorem charVal_digitChar : ∀ d < 10, charVal (digitChar d) = d := by decide

theorem isDigitChar_digitChar : ∀ d < 10, isDigitChar (digitChar d) = true := by decide

theorem charVal_lt_of_isDigitChar {c : Char} (h : isDigitChar c = true) : charVal c < 10 := by
  simp [isDigitChar] at h
  unfold charVal
  omega

theorem list_len2 {α : Type} (p : List α) (h : p.length = 2) :
    ∃ a₀ a₁, p = [a₀, a₁] := by
  obtain ⟨a₀, p, rfl⟩ := p.exists_of_length_succ h
  simp at h
  obtain ⟨a₁, p, rfl⟩ := p.exists_of_length_succ h
  simp at h
  subst h
  exact ⟨a₀, a₁, rfl⟩

theorem list_len12 {α : Type} (p : List α) (h : p.length = 12) :
    ∃ a₀ a₁ a₂ a₃ a₄ a₅ a₆ a₇ a₈ a₉ a₁₀ a₁₁,
      p = [a₀, a₁, a₂, a₃, a₄, a₅, a₆, a₇, a₈, a₉, a₁₀, a₁₁] := by
  obtain ⟨a₀, p, rfl⟩ := p.exists_of_length_succ h
  simp at h
  obtain ⟨a₁, p, rfl⟩ := p.exists_of_length_succ h
  simp at h
  obtain ⟨a₂, p, rfl⟩ := p.exists_of_length_succ h
  simp at h
  obtain ⟨a₃, p, rfl⟩ := p.exists_of_length_succ h
  simp at h
  obtain ⟨a₄, p, rfl⟩ := p.exists_of_length_succ h
  simp at h
  obtain ⟨a₅, p, rfl⟩ := p.exists_of_length_succ h
  simp at h
  obtain ⟨a₆, p, rfl⟩ := p.exists_of_length_succ h
  simp at h
  obtain ⟨a₇, p, rfl⟩ := p.exists_of_length_succ h
  simp at h
  obtain ⟨a₈, p, rfl⟩ := p.exists_of_length_succ h
  simp at h
  obtain ⟨a₉, p, rfl⟩ := p.exists_of_length_succ h
  simp at h
  obtain ⟨a₁₀, a₁₁, rfl⟩ := list_len2 p h
  exact ⟨a₀, a₁, a₂, a₃, a₄, a₅, a₆, a₇, a₈, a₉, a₁₀, a₁₁, rfl⟩

theorem list_len13 {α : Type} (p : List α) (h : p.length = 13) :
    ∃ a₀ a₁ a₂ a₃ a₄ a₅ a₆ a₇ a₈ a₉ a₁₀ a₁₁ a₁₂,
      p = [a₀, a₁, a₂, a₃, a₄, a₅, a₆, a₇, a₈, a₉, a₁₀, a₁₁, a₁₂] := by
  obtain ⟨a₀, p, rfl⟩ := p.exists_of_length_succ h
  simp at h
  obtain ⟨a₁, a₂, a₃, a₄, a₅, a₆, a₇, a₈, a₉, a₁₀, a₁₁, a₁₂, rfl⟩ := list_len12 p h
  exact ⟨a₀, a₁, a₂, a₃, a₄, a₅, a₆, a₇, a₈, a₉, a₁₀, a₁₁, a₁₂, rfl⟩

/-! ## Checksum and generator helper lemmas -/

theorem ean13_checksum_lt_ten (p : List Char) : ean13_checksum p < 10 :=
  Nat.mod_lt _ (by norm_num)

theorem ean13_checksum_positional (p : List Char) (hp : p.length = 12) :
    ean13_checksum p =
      (10 - ((charVal (p.getD 0 ' ') + charVal (p.getD 2 ' ') + charVal (p.getD 4 ' ')
        + charVal (p.getD 6 ' ') + charVal (p.getD 8 ' ') + charVal (p.getD 10 ' ')
        + 3 * (charVal (p.getD 1 ' ') + charVal (p.getD 3 ' ') + charVal (p.getD 5 ' ')
          + charVal (p.getD 7 ' ') + charVal (p.getD 9 ' ') + charVal (p.getD 11 ' ')))
        % 10)) % 10 := by
  obtain ⟨a₀, a₁, a₂, a₃, a₄, a₅, a₆, a₇, a₈, a₉, a₁₀, a₁₁, rfl⟩ := list_len12 p hp
  simp [ean13_checksum, everyOther]
  omega

theorem is_valid_append_checksum (p : List Char) (hp : p.length = 12)
    (hd : p.all isDigitChar = true) :
    is_valid_ean13 (p ++ [digitChar (ean13_checksum p)]) = true := by
  have hck := ean13_checksum_lt_ten p
  have hguard : ((p ++ [digitChar (ean13_checksum p)]).length == 13
      && (p ++ [digitChar (ean13_checksum p)]).all isDigitChar) = true := by
    simp [hp, hd, isDigitChar_digitChar _ hck]
  have htake : (p ++ [digitChar (ean13_checksum p)]).take 12 = p := by
    rw [← hp]
    exact List.take_left p _
  have hlast : (p ++ [digitChar (ean13_checksum p)]).getLastD ' '
      = digitChar (ean13_checksum p) := by simp
  unfold is_valid_ean13
  rw [if_pos hguard, htake, hlast, charVal_digitChar _ hck]
  simp

theorem decimalChars_length_of_ne_zero {id : Nat} (h : id ≠ 0) :
    (decimalChars id).length = (Nat.digits 10 id).length := by
  unfold decimalChars
  rw [if_neg h]
  simp

theorem decimalChars_length_le {id : Nat} (h : id ≤ 999999999) :
    (decimalChars id).length ≤ 9 := by
  by_cases h0 : id = 0
  · subst h0; decide
  · rw [decimalChars_length_of_ne_zero h0,
      Nat.digits_len 10 id (by norm_num) h0]
    have hlt : id < 10 ^ 9 := by norm_num; omega
    have := (Nat.lt_pow_iff_log_lt (b := 10) (by norm_num) h0).1 hlt
    omega

theorem decimalChars_length_ge {id : Nat} (h : 999999999 < id) :
    10 ≤ (decimalChars id).length := by
  have h0 : id ≠ 0 := by omega
  rw [decimalChars_length_of_ne_zero h0, Nat.digits_len 10 id (by norm_num) h0]
  have hge : 10 ^ 9 ≤ id := by norm_num; omega
  have := (Nat.pow_le_iff_le_log (b := 10) (by norm_num) h0).1 hge
  omega

theorem decimalChars_all_digits (n : Nat) :
    (decimalChars n).all isDigitChar = true := by
  unfold decimalChars
  split
  · decide
  · rw [List.all_reverse, List.all_eq_true]
    intro c hc
    obtain ⟨d, hd, rfl⟩ := List.mem_map.1 hc
    exact isDigitChar_digitChar d (Nat.digits_lt_base (by norm_num) hd)

theorem zeroPad_length {s : List Char} (h : s.length ≤ 9) :
    (zeroPad 9 s).length = 9 := by
  simp [zeroPad]
  omega

theorem zeroPad_all_digits {s : List Char} (h : s.all isDigitChar = true) :
    (zeroPad 9 s).all isDigitChar = true := by
  unfold zeroPad
  rw [List.all_append, h, Bool.and_true, List.all_eq_true]
  intro c hc
  rw [List.eq_of_mem_replicate hc]
  decide

theorem ofDigits_replicate_zero (k : Nat) :
    Nat.ofDigits 10 (List.replicate k 0) = 0 := by
  induction k with
  | zero => rfl
  | succ m ih => simp [List.replicate_succ, Nat.ofDigits_cons, ih]

theorem map_charVal_decimalChars {n : Nat} (h0 : n ≠ 0) :
    List.map charVal (decimalChars n) = (Nat.digits 10 n).reverse := by
  unfold decimalChars
  rw [if_neg h0, List.map_reverse, List.map_map]
  congr 1
  calc List.map (charVal ∘ digitChar) (Nat.digits 10 n)
      = List.map (fun d => d) (Nat.digits 10 n) :=
        List.map_congr_left (fun d hd => by
          simpa using charVal_digitChar d (Nat.digits_lt_base (by norm_num) hd))
    _ = Nat.digits 10 n := by simp

theorem charsToNat_zeroPad {s : List Char} {n : Nat}
    (hs : List.map charVal s = (Nat.digits 10 n).reverse) :
    charsToNat (zeroPad 9 s) = n := by
  unfold charsToNat zeroPad
  rw [List.map_append, hs, List.reverse_append, List.reverse_reverse]
  rw [show List.map charVal (List.replicate (9 - s.length) '0')
      = List.replicate (9 - s.length) 0 by
    rw [List.map_replicate]
    rfl]
  rw [List.reverse_replicate, Nat.ofDigits_append, ofDigits_replicate_zero,
    Nat.ofDigits_digits]
  ring

theorem charsToNat_zeroPad_decimalChars {n : Nat} (h0 : n ≠ 0) :
    charsToNat (zeroPad 9 (decimalChars n)) = n :=
  charsToNat_zeroPad (map_charVal_decimalChars h0)

theorem build_barcode_base12_length {n : Nat} (h : n ≤ 999999999) :
    ('2' :: '9' :: '0' :: zeroPad 9 (decimalChars n)).length = 12 := by
  simp [zeroPad_length (decimalChars_length_le h)]

theorem build_barcode_base12_all_digits (n : Nat) :
    ('2' :: '9' :: '0' :: zeroPad 9 (decimalChars n)).all isDigitChar = true := by
  have hz := zeroPad_all_digits (decimalChars_all_digits n)
  simp only [List.all_cons, hz, Bool.and_true]
  decide

theorem build_barcode_length {n : Nat} (h : n ≤ 999999999) :
    (build_barcode n).length = 13 := by
  show (('2' :: '9' :: '0' :: zeroPad 9 (decimalChars n))
      ++ [digitChar (ean13_checksum
            ('2' :: '9' :: '0' :: zeroPad 9 (decimalChars n)))]).length = 13
  rw [List.length_append, build_barcode_base12_length h]
  rfl

theorem build_barcode_valid {n : Nat} (h : n ≤ 999999999) :
    is_valid_ean13 (build_barcode n) = true :=
  is_valid_append_checksum _ (build_barcode_base12_length h)
    (build_barcode_base12_all_digits n)

theorem build_barcode_decode {n : Nat} (h1 : n ≠ 0) (h2 : n ≤ 999999999) :
    decodeClientId (build_barcode n) = n := by
  have hzp : (zeroPad 9 (decimalChars n)).length = 9 :=
    zeroPad_length (decimalChars_length_le h2)
  show charsToNat (((('2' :: '9' :: '0' :: zeroPad 9 (decimalChars n))
      ++ [digitChar (ean13_checksum
            ('2' :: '9' :: '0' :: zeroPad 9 (decimalChars n)))]).drop 3).take 9) = n
  rw [show (('2' :: '9' :: '0' :: zeroPad 9 (decimalChars n))
      ++ [digitChar (ean13_checksum
            ('2' :: '9' :: '0' :: zeroPad 9 (decimalChars n)))]).drop 3
      = zeroPad 9 (decimalChars n)
        ++ [digitChar (ean13_checksum
              ('2' :: '9' :: '0' :: zeroPad 9 (decimalChars n)))] from rfl]
  rw [List.take_left' hzp]
  exact charsToNat_zeroPad_decimalChars h1

/-! ## Encoder helper lemmas -/

theorem l_codes_length : ∀ d < 10, (l_codes d).length = 7 := by decide

theorem g_codes_length : ∀ d < 10, (g_codes d).length = 7 := by decide

theorem r_codes_length : ∀ d < 10, (r_codes d).length = 7 := by decide

theorem parityTable_length : ∀ d < 10, (parityTable d).length = 6 := by decide

theorem lg_block_length {p : Char} {d : Nat} (hd : d < 10) :
    (if p = 'L' then l_codes d else g_codes d).length = 7 := by
  split
  · exact l_codes_length d hd
  · exact g_codes_length d hd

theorem list_len6 {α : Type} (p : List α) (h : p.length = 6) :
    ∃ a₀ a₁ a₂ a₃ a₄ a₅, p = [a₀, a₁, a₂, a₃, a₄, a₅] := by
  obtain ⟨a₀, p, rfl⟩ := p.exists_of_length_succ h
  simp at h
  obtain ⟨a₁, p, rfl⟩ := p.exists_of_length_succ h
  simp at h
  obtain ⟨a₂, p, rfl⟩ := p.exists_of_length_succ h
  simp at h
  obtain ⟨a₃, p, rfl⟩ := p.exists_of_length_succ h
  simp at h
  obtain ⟨a₄, a₅, rfl⟩ := list_len2 p h
  exact ⟨a₀, a₁, a₂, a₃, a₄, a₅, rfl⟩

theorem flatten7_length (blocks : List (List Char))
    (hall : ∀ b ∈ blocks, b.length = 7) :
    blocks.flatten.length = 7 * blocks.length := by
  induction blocks with
  | nil => rfl
  | cons b bs ih =>
    rw [List.flatten_cons, List.length_append, hall b (by simp),
      ih (fun x hx => hall x (by simp [hx]))]
    simp
    ring

theorem flatten7_slice (blocks : List (List Char)) (post : List Char) (i : Nat)
    (hall : ∀ b ∈ blocks, b.length = 7) (hi : i < blocks.length) :
    ((blocks.flatten ++ post).drop (7 * i)).take 7 = blocks.getD i [] := by
  induction blocks generalizing i post with
  | nil => simp at hi
  | cons b bs ih =>
    have hb : b.length = 7 := hall b (by simp)
    cases i with
    | zero =>
      rw [Nat.mul_zero, List.drop_zero, List.flatten_cons, List.append_assoc,
        List.take_left' hb]
      rfl
    | succ j =>
      rw [List.flatten_cons, List.append_assoc,
        show 7 * (j + 1) = b.length + 7 * j from by rw [hb]; ring,
        List.drop_append]
      exact ih post j (fun x hx => hall x (by simp [hx])) (by simpa using hi)

theorem build_ean13_bits_some_inv {code bits : List Char}
    (h : build_ean13_bits code = some bits) :
    code.length = 13 ∧ code.all isDigitChar = true
    ∧ bits = ['1', '0', '1']
        ++ (List.zipWith
            (fun p d => if p = 'L' then l_codes (charVal d) else g_codes (charVal d))
            (parityTable (charVal (code.getD 0 ' '))) ((code.drop 1).take 6)).flatten
        ++ ['0', '1', '0', '1', '0']
        ++ ((code.drop 7).map (fun d => r_codes (charVal d))).flatten
        ++ ['1', '0', '1'] := by
  unfold build_ean13_bits at h
  split at h
  case isTrue hg =>
    rw [Bool.and_eq_true, beq_iff_eq] at hg
    injection h with hbits
    exact ⟨hg.1, hg.2, hbits.symm⟩
  case isFalse hg =>
    simp at h

/-! ## PNG helper lemmas -/

theorem zip_lg_flatten_length (ps ds : List Char)
    (hds : ∀ d ∈ ds, isDigitChar d = true) :
    (List.zipWith
      (fun p d => if p = 'L' then l_codes (charVal d) else g_codes (charVal d))
      ps ds).flatten.length = 7 * min ps.length ds.length := by
  induction ps generalizing ds with
  | nil => simp
  | cons p ps ih =>
    cases ds with
    | nil => simp
    | cons d ds =>
      rw [List.zipWith_cons_cons, List.flatten_cons, List.length_append,
        lg_block_length (charVal_lt_of_isDigitChar (hds d (by simp))),
        ih ds (fun x hx => hds x (by simp [hx]))]
      simp only [List.length_cons, Nat.succ_min_succ]
      omega

theorem map_r_flatten_length (ds : List Char)
    (hds : ∀ d ∈ ds, isDigitChar d = true) :
    ((ds.map (fun d => r_codes (charVal d))).flatten).length = 7 * ds.length := by
  induction ds with
  | nil => rfl
  | cons d ds ih =>
    rw [List.map_cons, List.flatten_cons, List.length_append,
      r_codes_length _ (charVal_lt_of_isDigitChar (hds d (by simp))),
      ih (fun x hx => hds x (by simp [hx]))]
    simp only [List.length_cons]
    omega

theorem build_ean13_bits_length {code bits : List Char}
    (h : build_ean13_bits code = some bits) : bits.length = 95 := by
  obtain ⟨hlen, hall, hbits⟩ := build_ean13_bits_some_inv h
  subst hbits
  rw [List.all_eq_true] at hall
  have h1 : ∀ d ∈ (code.drop 1).take 6, isDigitChar d = true := fun d hd =>
    hall d (List.mem_of_mem_drop (List.mem_of_mem_take hd))
  have h2 : ∀ d ∈ code.drop 7, isDigitChar d = true := fun d hd =>
    hall d (List.mem_of_mem_drop hd)
  have hg0 : code.getD 0 ' ' ∈ code := by
    rw [List.getD_eq_getElem _ _ (by omega)]
    exact List.getElem_mem _
  have hpl : (parityTable (charVal (code.getD 0 ' '))).length = 6 :=
    parityTable_length _ (charVal_lt_of_isDigitChar (hall _ hg0))
  have hl1 : ((code.drop 1).take 6).length = 6 := by simp [hlen]
  have hl2 : (code.drop 7).length = 6 := by simp [hlen]
  rw [List.length_append, List.length_append, List.length_append,
    List.length_append, zip_lg_flatten_length _ _ h1, map_r_flatten_length _ h2,
    hpl, hl1, hl2]
  simp

theorem flatten_getD_uniform {α : Type} (d : α) (L j : Nat) (hj : j < L) :
    ∀ (rows : List (List α)) (y : Nat), (∀ r ∈ rows, r.length = L) →
      y < rows.length →
      rows.flatten.getD (y * L + j) d = (rows.getD y []).getD j d := by
  intro rows
  induction rows with
  | nil =>
    intro y _ hy
    simp at hy
  | cons r rs ih =>
    intro y hall hy
    have hr : r.length = L := hall r (by simp)
    cases y with
    | zero =>
      rw [Nat.zero_mul, Nat.zero_add, List.flatten_cons,
        List.getD_append _ _ _ _ (by omega)]
      rfl
    | succ z =>
      rw [List.flatten_cons, show (z + 1) * L + j = L + (z * L + j) from by ring,
        List.getD_append_right _ _ _ _ (by rw [hr]; omega),
        show L + (z * L + j) - r.length = z * L + j from by rw [hr]; omega]
      exact ih z (fun x hx => hall x (by simp [hx])) (by simpa using hy)

theorem scanrows_getD (bits : List Char) (y : Nat) (hy : y < 220) :
    ((List.range 220).map (pngRow bits)).getD y [] = pngRow bits y := by
  rw [List.getD_eq_getElem _ _ (by simpa using hy)]
  simp

theorem flatten_length_const {α β : Type} (f : β → List α) (l : List β)
    (k : Nat) (h : ∀ x ∈ l, (f x).length = k) :
    (l.map f).flatten.length = k * l.length := by
  induction l with
  | nil => simp
  | cons b bs ih =>
    rw [List.map_cons, List.flatten_cons, List.length_append, h b (by simp),
      ih (fun x hx => h x (by simp [hx])), List.length_cons]
    ring

theorem pngPixel_length (bits : List Char) (y x : Nat) :
    (pngPixel bits y x).length = 3 := rfl

theorem pngRow_length (bits : List Char) (y : Nat) :
    (pngRow bits y).length = 1 + 3 * ((bits.length + 12 * 2) * 4) := by
  unfold pngRow
  rw [List.length_cons,
    flatten_length_const (pngPixel bits y) _ 3 (fun x _ => pngPixel_length bits y x),
    List.length_range]
  omega

theorem pngPixel_getD (bits : List Char) (y x k : Nat) (hk : k < 3) :
    (pngPixel bits y x).getD k 999
      = if (12 ≤ y ∧ y < 12 + 180)
          ∧ 0 ≤ (x : Int) / 4 - 12 ∧ (x : Int) / 4 - 12 < (bits.length : Int)
          ∧ bits.getD ((x : Int) / 4 - 12).toNat ' ' = '1'
        then 0 else 255 := by
  have hcond : (((decide (12 ≤ y) && decide (y < 12 + 180))
        && decide (0 ≤ (x : Int) / 4 - 12)
        && decide ((x : Int) / 4 - 12 < (bits.length : Int))
        && (bits.getD ((x : Int) / 4 - 12).toNat ' ' == '1')) = true)
      ↔ ((12 ≤ y ∧ y < 12 + 180)
          ∧ 0 ≤ (x : Int) / 4 - 12 ∧ (x : Int) / 4 - 12 < (bits.length : Int)
          ∧ bits.getD ((x : Int) / 4 - 12).toNat ' ' = '1') := by
    simp [and_assoc]
  have hpix : pngPixel bits y x
      = [if ((decide (12 ≤ y) && decide (y < 12 + 180))
            && decide (0 ≤ (x : Int) / 4 - 12)
            && decide ((x : Int) / 4 - 12 < (bits.length : Int))
            && (bits.getD ((x : Int) / 4 - 12).toNat ' ' == '1')) then 0 else 255,
         if ((decide (12 ≤ y) && decide (y < 12 + 180))
            && decide (0 ≤ (x : Int) / 4 - 12)
            && decide ((x : Int) / 4 - 12 < (bits.length : Int))
            && (bits.getD ((x : Int) / 4 - 12).toNat ' ' == '1')) then 0 else 255,
         if ((decide (12 ≤ y) && decide (y < 12 + 180))
            && decide (0 ≤ (x : Int) / 4 - 12)
            && decide ((x : Int) / 4 - 12 < (bits.length : Int))
            && (bits.getD ((x : Int) / 4 - 12).toNat ' ' == '1')) then 0 else 255] := rfl
  rw [hpix]
  interval_cases k <;> simp only [List.getD_cons_zero, List.getD_cons_succ] <;>
    exact if_congr hcond rfl rfl

theorem pngScanlines_length (bits : List Char) :
    (pngScanlines bits).length
      = 220 * (1 + 3 * ((bits.length + 12 * 2) * 4)) := by
  unfold pngScanlines
  rw [flatten_length_const (pngRow bits) _ (1 + 3 * ((bits.length + 12 * 2) * 4))
      (fun y _ => pngRow_length bits y), List.length_range]
  ring

theorem pngScanlines_getD (bits : List Char) (y j : Nat) (hy : y < 220)
    (hj : j < 1 + 3 * ((bits.length + 12 * 2) * 4)) :
    (pngScanlines bits).getD (y * (1 + 3 * ((bits.length + 12 * 2) * 4)) + j) 999
      = (pngRow bits y).getD j 999 := by
  unfold pngScanlines
  rw [flatten_getD_uniform 999 _ j hj ((List.range 220).map (pngRow bits)) y
      (by
        intro r hr
        obtain ⟨z, hz, rfl⟩ := List.mem_map.1 hr
        exact pngRow_length bits z)
      (by simpa using hy),
    scanrows_getD bits y hy]

theorem pngRow_getD_pixel (bits : List Char) (y x k : Nat)
    (hx : x < (bits.length + 12 * 2) * 4) (hk : k < 3) :
    (pngRow bits y).getD (1 + 3 * x + k) 999 = (pngPixel bits y x).getD k 999 := by
  unfold pngRow
  rw [show 1 + 3 * x + k = (x * 3 + k) + 1 from by ring, List.getD_cons_succ]
  rw [flatten_getD_uniform 999 3 k hk _ x
      (by
        intro r hr
        obtain ⟨z, hz, rfl⟩ := List.mem_map.1 hr
        exact pngPixel_length bits y z)
      (by simpa using hx)]
  have hxm : ((List.range ((bits.length + 12 * 2) * 4)).map (pngPixel bits y)).getD x []
      = pngPixel bits y x := by
    rw [List.getD_eq_getElem _ _ (by simpa using hx)]
    simp
  rw [hxm]

/-! ## Loyalty helper lemmas -/

theorem add_breakfast_visit_flag (db : DBState) (cid : Nat) (d : List Char) :
    (add_breakfast_visit db cid d).2.2
      = ((get_breakfast_count_total db cid + 1) % 7 == 0) := rfl

theorem get_breakfast_count_total_add (db : DBState) (cid : Nat) (d : List Char) :
    get_breakfast_count_total (add_breakfast_visit db cid d).1 cid
      = get_breakfast_count_total db cid + 1 := by
  simp [add_breakfast_visit, get_breakfast_count_total, List.filter_append]

/-! ## Claim theorems -/

/-- **C1 counterexample.**  The claim says `build_ean13_bits` fails unless
`is_valid_ean13` holds.  The string `"0000000000001"` is 13 digits whose last
digit is not the checksum of its first 12 (`is_valid_ean13` is false), yet
the encoder accepts it and returns a bit pattern. -/
theorem encoder_accepts_checksum_invalid_code :
    (build_ean13_bits "0000000000001".toList).isSome = true
    ∧ is_valid_ean13 "0000000000001".toList = false := by decide

/-- **C1 (amended).**  `build_ean13_bits` rejects exactly the inputs that are
not strings of 13 ASCII digits; the checksum is not consulted, so every
13-digit string — including ones failing full EAN-13 validation — is
encoded.  In particular every code passing `is_valid_ean13` is encoded. -/
theorem encoder_rejects_iff_not_13_digit_string (code : List Char) :
    (build_ean13_bits code = none ↔ ¬(code.length = 13 ∧ code.all isDigitChar = true))
    ∧ (is_valid_ean13 code = true → (build_ean13_bits code).isSome = true) := by
  constructor
  · unfold build_ean13_bits
    split <;> rename_i h <;> simp_all
  · intro hv
    unfold is_valid_ean13 at hv
    unfold build_ean13_bits
    split <;> rename_i h
    · rfl
    · rw [if_neg h] at hv
      exact absurd hv (by simp)

/-- **C2.**  Breakfast and coffee loyalty visits are two isolated per-client
counters: registering a coffee visit changes no client's breakfast count,
stats or visit list, registering a breakfast visit changes no client's
coffee stats or visit list, and the coffee operations used by the scan/stat
routes are exactly the breakfast operations acting on the coffee table
(stated via `swapCategories`). -/
theorem breakfast_coffee_isolated (db : DBState) (cid cid₂ : Nat) (date : List Char)
    (ocid : Option Nat) (sd ed : Option (List Char)) :
    get_breakfast_count_total (add_coffee_visit db cid date).1 cid₂
        = get_breakfast_count_total db cid₂
    ∧ get_client_breakfast_stats (add_coffee_visit db cid date).1 cid₂
        = get_client_breakfast_stats db cid₂
    ∧ get_breakfast_visits (add_coffee_visit db cid date).1 ocid sd ed
        = get_breakfast_visits db ocid sd ed
    ∧ get_client_coffee_stats (add_breakfast_visit db cid date).1 cid₂
        = get_client_coffee_stats db cid₂
    ∧ get_coffee_visits (add_breakfast_visit db cid date).1 ocid sd ed
        = get_coffee_visits db ocid sd ed
    ∧ add_coffee_visit db cid date
        = (swapCategories (add_breakfast_visit (swapCategories db) cid date).1,
            (add_breakfast_visit (swapCategories db) cid date).2)
    ∧ get_coffee_visits db ocid sd ed
        = get_breakfast_visits (swapCategories db) ocid sd ed
    ∧ get_client_coffee_stats db cid
        = get_client_breakfast_stats (swapCategories db) cid :=
  ⟨rfl, rfl, rfl, rfl, rfl, rfl, rfl, rfl⟩

/-- **C8.**  A registered visit gets ordinal `total_prior + 1` and is free
exactly when that ordinal is divisible by 7 (no monthly reset: the count is
the all-time total), and seven sequential registrations for a fresh client
produce the free flags `[F, F, F, F, F, F, T]`. -/
theorem add_breakfast_visit_seventh_free (db db₀ : DBState) (cid cid₀ : Nat)
    (date d₁ d₂ d₃ d₄ d₅ d₆ d₇ : List Char)
    (h₀ : get_breakfast_count_total db₀ cid₀ = 0) :
    (add_breakfast_visit db cid date).2.2
        = ((get_breakfast_count_total db cid + 1) % 7 == 0)
    ∧ breakfast_free_flags db₀ cid₀ [d₁, d₂, d₃, d₄, d₅, d₆, d₇]
        = [false, false, false, false, false, false, true] := by
  refine ⟨rfl, ?_⟩
  simp [breakfast_free_flags, add_breakfast_visit_flag, get_breakfast_count_total_add, h₀]

/-- **C8 witness.** -/
theorem add_breakfast_visit_seventh_free_witness :
    get_breakfast_count_total ⟨[], [], [], 1, 1⟩ 1 = 0
    ∧ ((add_breakfast_visit ⟨[], [], [], 1, 1⟩ 1 [] ).2.2
        = ((get_breakfast_count_total ⟨[], [], [], 1, 1⟩ 1 + 1) % 7 == 0)
      ∧ breakfast_free_flags ⟨[], [], [], 1, 1⟩ 1 [[], [], [], [], [], [], []]
        = [false, false, false, false, false, false, true]) :=
  ⟨rfl, add_breakfast_visit_seventh_free ⟨[], [], [], 1, 1⟩ ⟨[], [], [], 1, 1⟩ 1 1
    [] [] [] [] [] [] [] [] rfl⟩

/-- **C9.**  For a client with total visit count `n`,
`get_client_breakfast_stats` reports `visits_until_free = 7 - n % 7` (so 7 —
never 0 — at `n = 0` and at every exact multiple of 7) and
`next_is_free = (n % 7 == 6)`; in particular `n = 0 ↦ (7, false)`,
`n = 6 ↦ (1, true)`, `n = 7 ↦ 7`. -/
theorem get_client_breakfast_stats_formulas (db : DBState) (cid n : Nat)
    (h : get_breakfast_count_total db cid = n) :
    (get_client_breakfast_stats db cid).visits_until_free = 7 - n % 7
    ∧ (get_client_breakfast_stats db cid).next_is_free = (n % 7 == 6)
    ∧ (get_client_breakfast_stats db cid).visits_until_free ≠ 0
    ∧ (n % 7 = 0 → (get_client_breakfast_stats db cid).visits_until_free = 7)
    ∧ (n = 0 → (get_client_breakfast_stats db cid).visits_until_free = 7
        ∧ (get_client_breakfast_stats db cid).next_is_free = false)
    ∧ (n = 6 → (get_client_breakfast_stats db cid).visits_until_free = 1
        ∧ (get_client_breakfast_stats db cid).next_is_free = true)
    ∧ (n = 7 → (get_client_breakfast_stats db cid).visits_until_free = 7) := by
  have hv : (get_client_breakfast_stats db cid).visits_until_free = 7 - n % 7 := by
    simp only [get_client_breakfast_stats, h]
    split <;> rename_i hb
    · simp at hb
      omega
    · rfl
  have hn : (get_client_breakfast_stats db cid).next_is_free = (n % 7 == 6) := by
    simp only [get_client_breakfast_stats, h]
  refine ⟨hv, hn, ?_, ?_, ?_, ?_, ?_⟩
  · rw [hv]; omega
  · intro h0; rw [hv]; omega
  · rintro rfl; exact ⟨by rw [hv], by rw [hn]; rfl⟩
  · rintro rfl; exact ⟨by rw [hv], by rw [hn]; rfl⟩
  · rintro rfl; rw [hv]

/-- **C9 witness.** -/
theorem get_client_breakfast_stats_formulas_witness :
    get_breakfast_count_total ⟨[], [], [], 1, 1⟩ 1 = 0
    ∧ ((get_client_breakfast_stats ⟨[], [], [], 1, 1⟩ 1).visits_until_free = 7 - 0 % 7
      ∧ (get_client_breakfast_stats ⟨[], [], [], 1, 1⟩ 1).next_is_free = (0 % 7 == 6)
      ∧ (get_client_breakfast_stats ⟨[], [], [], 1, 1⟩ 1).visits_until_free ≠ 0
      ∧ (0 % 7 = 0 → (get_client_breakfast_stats ⟨[], [], [], 1, 1⟩ 1).visits_until_free = 7)
      ∧ (0 = 0 → (get_client_breakfast_stats ⟨[], [], [], 1, 1⟩ 1).visits_until_free = 7
          ∧ (get_client_breakfast_stats ⟨[], [], [], 1, 1⟩ 1).next_is_free = false)
      ∧ (0 = 6 → (get_client_breakfast_stats ⟨[], [], [], 1, 1⟩ 1).visits_until_free = 1
          ∧ (get_client_breakfast_stats ⟨[], [], [], 1, 1⟩ 1).next_is_free = true)
      ∧ (0 = 7 → (get_client_breakfast_stats ⟨[], [], [], 1, 1⟩ 1).visits_until_free = 7)) :=
  ⟨rfl, get_client_breakfast_stats_formulas ⟨[], [], [], 1, 1⟩ 1 0 rfl⟩

/-- **C4.**  `ean13_checksum` computes `(10 - (S mod 10)) mod 10` where `S`
is the sum of the digits at even 0-based positions 0,2,…,10 plus three times
the sum of the digits at odd positions 1,3,…,11; appending the checksum to
any 12-digit payload yields a code accepted by `is_valid_ean13`, and any
13-digit string whose last digit differs from the checksum of its first 12
is rejected. -/
theorem ean13_checksum_spec (p code : List Char) (hp : p.length = 12)
    (hpd : p.all isDigitChar = true) (hc : code.length = 13)
    (hcd : code.all isDigitChar = true) :
    ean13_checksum p =
      (10 - ((charVal (p.getD 0 ' ') + charVal (p.getD 2 ' ') + charVal (p.getD 4 ' ')
        + charVal (p.getD 6 ' ') + charVal (p.getD 8 ' ') + charVal (p.getD 10 ' ')
        + 3 * (charVal (p.getD 1 ' ') + charVal (p.getD 3 ' ') + charVal (p.getD 5 ' ')
          + charVal (p.getD 7 ' ') + charVal (p.getD 9 ' ') + charVal (p.getD 11 ' ')))
        % 10)) % 10
    ∧ is_valid_ean13 (p ++ [digitChar (ean13_checksum p)]) = true
    ∧ (charVal (code.getLastD ' ') ≠ ean13_checksum (code.take 12) →
        is_valid_ean13 code = false) := by
  refine ⟨ean13_checksum_positional p hp, is_valid_append_checksum p hp hpd, ?_⟩
  intro hne
  unfold is_valid_ean13
  rw [if_pos (by simp [hc, hcd])]
  simp only [beq_eq_false_iff_ne, ne_eq]
  exact fun hh => hne hh.symm

/-- **C4 witness.** -/
theorem ean13_checksum_spec_witness :
    ("290000000042".toList.length = 12
      ∧ "290000000042".toList.all isDigitChar = true
      ∧ "2900000000420".toList.length = 13
      ∧ "2900000000420".toList.all isDigitChar = true)
    ∧ (ean13_checksum "290000000042".toList =
        (10 - ((charVal ("290000000042".toList.getD 0 ' ')
          + charVal ("290000000042".toList.getD 2 ' ')
          + charVal ("290000000042".toList.getD 4 ' ')
          + charVal ("290000000042".toList.getD 6 ' ')
          + charVal ("290000000042".toList.getD 8 ' ')
          + charVal ("290000000042".toList.getD 10 ' ')
          + 3 * (charVal ("290000000042".toList.getD 1 ' ')
            + charVal ("290000000042".toList.getD 3 ' ')
            + charVal ("290000000042".toList.getD 5 ' ')
            + charVal ("290000000042".toList.getD 7 ' ')
            + charVal ("290000000042".toList.getD 9 ' ')
            + charVal ("290000000042".toList.getD 11 ' '))) % 10)) % 10
      ∧ is_valid_ean13 ("290000000042".toList
          ++ [digitChar (ean13_checksum "290000000042".toList)]) = true
      ∧ (charVal ("2900000000420".toList.getLastD ' ')
            ≠ ean13_checksum ("2900000000420".toList.take 12) →
          is_valid_ean13 "2900000000420".toList = false)) :=
  ⟨by decide, ean13_checksum_spec "290000000042".toList "2900000000420".toList
    (by decide) (by decide) (by decide) (by decide)⟩

/-- **C3 counterexample.**  The claim says `_build_barcode` raises a
configuration error for ids above 999,999,999 and never silently produces a
string longer than 13 characters.  At id 1,000,000,000 it returns (the
embedding is total — the source has no error path at all) a 14-character
string, which also fails `is_valid_ean13`. -/
theorem build_barcode_oversized_counterexample :
    (build_barcode 1000000000).length = 14
    ∧ is_valid_ean13 (build_barcode 1000000000) = false := by
  have hd : decimalChars 1000000000 = ['1', '0', '0', '0', '0', '0', '0', '0', '0', '0'] := by
    unfold decimalChars
    rw [if_neg (by norm_num)]
    rw [show Nat.digits 10 1000000000 = [0, 0, 0, 0, 0, 0, 0, 0, 0, 1] from by
      simp [Nat.digits_def']]
    decide
  rw [show build_barcode 1000000000
      = ('2' :: '9' :: '0' :: zeroPad 9 (decimalChars 1000000000))
        ++ [digitChar (ean13_checksum
              ('2' :: '9' :: '0' :: zeroPad 9 (decimalChars 1000000000)))] from rfl,
    hd]
  decide

/-- **C3 (amended).**  `_build_barcode` never raises: for every id above
999,999,999 it silently returns a string strictly longer than 13 characters
(the `:09d` format pads but never truncates), and that string is not a valid
EAN-13. -/
theorem build_barcode_oversized_no_error (n : Nat) (h : 999999999 < n) :
    13 < (build_barcode n).length ∧ is_valid_ean13 (build_barcode n) = false := by
  have h10 : 10 ≤ (decimalChars n).length := decimalChars_length_ge h
  have hzp : (zeroPad 9 (decimalChars n)).length = (decimalChars n).length := by
    unfold zeroPad
    simp
    omega
  have hlen : (build_barcode n).length = 4 + (decimalChars n).length := by
    unfold build_barcode
    simp [hzp]
    omega
  have hne : (build_barcode n).length ≠ 13 := by omega
  refine ⟨by omega, ?_⟩
  unfold is_valid_ean13
  rw [if_neg (by simp [hne])]

/-- **C3 witness.** -/
theorem build_barcode_oversized_no_error_witness :
    999999999 < 1000000000
    ∧ (13 < (build_barcode 1000000000).length
        ∧ is_valid_ean13 (build_barcode 1000000000) = false) :=
  ⟨by norm_num, build_barcode_oversized_no_error 1000000000 (by norm_num)⟩

/-- **C5.**  For ids 1 ≤ id ≤ 999,999,999 the generated barcode is a
13-character digit string starting with the fixed prefix `"290"`, the id is
recoverable from digit positions 3..11 (it is stored zero-padded to 9
digits), the code passes `is_valid_ean13`, generation is injective on the
range, and id 42 yields the payload `"290000000042"`. -/
theorem build_barcode_spec (id₁ id₂ : Nat) (ha1 : 1 ≤ id₁) (ha2 : id₁ ≤ 999999999)
    (hb1 : 1 ≤ id₂) (hb2 : id₂ ≤ 999999999) :
    (build_barcode id₁).length = 13
    ∧ (build_barcode id₁).take 3 = "290".toList
    ∧ decodeClientId (build_barcode id₁) = id₁
    ∧ is_valid_ean13 (build_barcode id₁) = true
    ∧ (build_barcode id₁ = build_barcode id₂ → id₁ = id₂)
    ∧ (build_barcode 42).take 12 = "290000000042".toList := by
  refine ⟨build_barcode_length ha2, rfl, build_barcode_decode (by omega) ha2,
    build_barcode_valid ha2, ?_, ?_⟩
  · intro heq
    have := build_barcode_decode (n := id₂) (by omega) hb2
    rw [← build_barcode_decode (n := id₁) (by omega) ha2, heq, this]
  · have hd : decimalChars 42 = ['4', '2'] := by
      unfold decimalChars
      rw [if_neg (by norm_num)]
      rw [show Nat.digits 10 42 = [2, 4] from by simp [Nat.digits_def']]
      decide
    rw [show build_barcode 42
        = ('2' :: '9' :: '0' :: zeroPad 9 (decimalChars 42))
          ++ [digitChar (ean13_checksum
                ('2' :: '9' :: '0' :: zeroPad 9 (decimalChars 42)))] from rfl,
      hd]
    decide

/-- **C5 witness.** -/
theorem build_barcode_spec_witness :
    (1 ≤ 1 ∧ 1 ≤ 999999999 ∧ 1 ≤ 2 ∧ 2 ≤ 999999999)
    ∧ ((build_barcode 1).length = 13
      ∧ (build_barcode 1).take 3 = "290".toList
      ∧ decodeClientId (build_barcode 1) = 1
      ∧ is_valid_ean13 (build_barcode 1) = true
      ∧ (build_barcode 1 = build_barcode 2 → 1 = 2)
      ∧ (build_barcode 42).take 12 = "290000000042".toList) :=
  ⟨by norm_num, build_barcode_spec 1 2 (by norm_num) (by norm_num)
    (by norm_num) (by norm_num)⟩

/-- **C6.**  Every code the encoder accepts yields exactly 95 bits: the
start guard `101`, six 7-bit left blocks each chosen from the L or G table
by the parity pattern keyed on the first digit, the center guard `01010` at
bit offsets 45..49, six 7-bit right blocks from the R table, and the end
guard `101`. -/
theorem build_ean13_bits_95_structure (code bits : List Char)
    (h : build_ean13_bits code = some bits) :
    bits.length = 95
    ∧ bits.take 3 = ['1', '0', '1']
    ∧ (∀ i, i < 6 → (bits.drop (3 + 7 * i)).take 7
        = (if (parityTable (charVal (code.getD 0 ' '))).getD i ' ' = 'L'
            then l_codes (charVal (code.getD (1 + i) ' '))
            else g_codes (charVal (code.getD (1 + i) ' '))))
    ∧ (bits.drop 45).take 5 = ['0', '1', '0', '1', '0']
    ∧ (∀ i, i < 6 → (bits.drop (50 + 7 * i)).take 7
        = r_codes (charVal (code.getD (7 + i) ' ')))
    ∧ bits.drop 92 = ['1', '0', '1'] := by
  obtain ⟨hlen, hall, hbits⟩ := build_ean13_bits_some_inv h
  obtain ⟨c0, c1, c2, c3, c4, c5, c6, c7, c8, c9, c10, c11, c12, rfl⟩ :=
    list_len13 code hlen
  simp only [List.all_cons, List.all_nil, Bool.and_eq_true, Bool.and_true] at hall
  obtain ⟨hd0, hd1, hd2, hd3, hd4, hd5, hd6, hd7, hd8, hd9, hd10, hd11, hd12⟩ := hall
  have hv0 := charVal_lt_of_isDigitChar hd0
  have hv1 := charVal_lt_of_isDigitChar hd1
  have hv2 := charVal_lt_of_isDigitChar hd2
  have hv3 := charVal_lt_of_isDigitChar hd3
  have hv4 := charVal_lt_of_isDigitChar hd4
  have hv5 := charVal_lt_of_isDigitChar hd5
  have hv6 := charVal_lt_of_isDigitChar hd6
  have hv7 := charVal_lt_of_isDigitChar hd7
  have hv8 := charVal_lt_of_isDigitChar hd8
  have hv9 := charVal_lt_of_isDigitChar hd9
  have hv10 := charVal_lt_of_isDigitChar hd10
  have hv11 := charVal_lt_of_isDigitChar hd11
  have hv12 := charVal_lt_of_isDigitChar hd12
  obtain ⟨p0, p1, p2, p3, p4, p5, hpat⟩ :=
    list_len6 (parityTable (charVal c0)) (parityTable_length _ hv0)
  have hX : bits
      = ['1', '0', '1']
        ++ ([if p0 = 'L' then l_codes (charVal c1) else g_codes (charVal c1),
             if p1 = 'L' then l_codes (charVal c2) else g_codes (charVal c2),
             if p2 = 'L' then l_codes (charVal c3) else g_codes (charVal c3),
             if p3 = 'L' then l_codes (charVal c4) else g_codes (charVal c4),
             if p4 = 'L' then l_codes (charVal c5) else g_codes (charVal c5),
             if p5 = 'L' then l_codes (charVal c6) else g_codes (charVal c6)].flatten
          ++ (['0', '1', '0', '1', '0']
            ++ ([r_codes (charVal c7), r_codes (charVal c8), r_codes (charVal c9),
                 r_codes (charVal c10), r_codes (charVal c11),
                 r_codes (charVal c12)].flatten
              ++ ['1', '0', '1']))) := by
    rw [hbits,
      show (([c0, c1, c2, c3, c4, c5, c6, c7, c8, c9, c10, c11, c12].drop 1).take 6)
        = [c1, c2, c3, c4, c5, c6] from rfl,
      show ([c0, c1, c2, c3, c4, c5, c6, c7, c8, c9, c10, c11, c12].drop 7)
        = [c7, c8, c9, c10, c11, c12] from rfl,
      show ([c0, c1, c2, c3, c4, c5, c6, c7, c8, c9, c10, c11, c12].getD 0 ' ')
        = c0 from rfl,
      hpat]
    simp only [List.zipWith, List.map, List.append_assoc]
  have hB : ∀ b ∈ [if p0 = 'L' then l_codes (charVal c1) else g_codes (charVal c1),
      if p1 = 'L' then l_codes (charVal c2) else g_codes (charVal c2),
      if p2 = 'L' then l_codes (charVal c3) else g_codes (charVal c3),
      if p3 = 'L' then l_codes (charVal c4) else g_codes (charVal c4),
      if p4 = 'L' then l_codes (charVal c5) else g_codes (charVal c5),
      if p5 = 'L' then l_codes (charVal c6) else g_codes (charVal c6)],
      b.length = 7 := by
    intro b hb
    simp only [List.mem_cons, List.not_mem_nil, or_false] at hb
    rcases hb with rfl | rfl | rfl | rfl | rfl | rfl
    exacts [lg_block_length hv1, lg_block_length hv2, lg_block_length hv3,
      lg_block_length hv4, lg_block_length hv5, lg_block_length hv6]
  have hR : ∀ b ∈ [r_codes (charVal c7), r_codes (charVal c8), r_codes (charVal c9),
      r_codes (charVal c10), r_codes (charVal c11), r_codes (charVal c12)],
      b.length = 7 := by
    intro b hb
    simp only [List.mem_cons, List.not_mem_nil, or_false] at hb
    rcases hb with rfl | rfl | rfl | rfl | rfl | rfl
    exacts [r_codes_length _ hv7, r_codes_length _ hv8, r_codes_length _ hv9,
      r_codes_length _ hv10, r_codes_length _ hv11, r_codes_length _ hv12]
  subst hX
  refine ⟨?_, ?_, ?_, ?_, ?_, ?_⟩
  · simp only [List.length_append, flatten7_length _ hB, flatten7_length _ hR]
    norm_num
  · exact List.take_left' rfl
  · intro i hi
    rw [← List.drop_drop,
      List.drop_left' (show (['1', '0', '1'] : List Char).length = 3 from rfl)]
    refine (flatten7_slice _ _ i hB (by simpa using hi)).trans ?_
    rw [show ([c0, c1, c2, c3, c4, c5, c6, c7, c8, c9, c10, c11, c12].getD 0 ' ')
        = c0 from rfl, hpat]
    interval_cases i <;> rfl
  · rw [show (45 : Nat) = 3 + 42 from by norm_num, ← List.drop_drop,
      List.drop_left' (show (['1', '0', '1'] : List Char).length = 3 from rfl),
      List.drop_left' ((flatten7_length _ hB).trans (by norm_num))]
    exact List.take_left' rfl
  · intro i hi
    rw [show (50 + 7 * i) = 3 + (42 + (5 + 7 * i)) from by ring, ← List.drop_drop,
      List.drop_left' (show (['1', '0', '1'] : List Char).length = 3 from rfl),
      ← List.drop_drop,
      List.drop_left' ((flatten7_length _ hB).trans (by norm_num)),
      ← List.drop_drop,
      List.drop_left' (show (['0', '1', '0', '1', '0'] : List Char).length = 5 from rfl)]
    refine (flatten7_slice _ _ i hR (by simpa using hi)).trans ?_
    interval_cases i <;> rfl
  · rw [show (92 : Nat) = 3 + (42 + (5 + 42)) from by norm_num, ← List.drop_drop,
      List.drop_left' (show (['1', '0', '1'] : List Char).length = 3 from rfl),
      ← List.drop_drop,
      List.drop_left' ((flatten7_length _ hB).trans (by norm_num)),
      ← List.drop_drop,
      List.drop_left' (show (['0', '1', '0', '1', '0'] : List Char).length = 5 from rfl),
      List.drop_left' ((flatten7_length _ hR).trans (by norm_num))]

/-- **C6 witness.** -/
theorem build_ean13_bits_95_structure_witness :
    build_ean13_bits "2900000000421".toList
        = some ((build_ean13_bits "2900000000421".toList).getD [])
    ∧ (((build_ean13_bits "2900000000421".toList).getD []).length = 95
      ∧ ((build_ean13_bits "2900000000421".toList).getD []).take 3 = ['1', '0', '1']
      ∧ (∀ i, i < 6 →
          (((build_ean13_bits "2900000000421".toList).getD []).drop (3 + 7 * i)).take 7
          = (if (parityTable (charVal ("2900000000421".toList.getD 0 ' '))).getD i ' ' = 'L'
              then l_codes (charVal ("2900000000421".toList.getD (1 + i) ' '))
              else g_codes (charVal ("2900000000421".toList.getD (1 + i) ' '))))
      ∧ (((build_ean13_bits "2900000000421".toList).getD []).drop 45).take 5
          = ['0', '1', '0', '1', '0']
      ∧ (∀ i, i < 6 →
          (((build_ean13_bits "2900000000421".toList).getD []).drop (50 + 7 * i)).take 7
          = r_codes (charVal ("2900000000421".toList.getD (7 + i) ' ')))
      ∧ ((build_ean13_bits "2900000000421".toList).getD []).drop 92 = ['1', '0', '1']) :=
  ⟨by decide, build_ean13_bits_95_structure "2900000000421".toList
    ((build_ean13_bits "2900000000421".toList).getD []) (by decide)⟩

set_option maxHeartbeats 2000000 in
/-- **C10.**  The checksum detects every single-digit substitution at every
position: replacing any one digit of a code accepted by `is_valid_ean13`
with a different digit character yields a string `is_valid_ean13` rejects
(the weights 1 and 3 are both coprime to 10). -/
theorem ean13_single_substitution_detected (code : List Char) (i : Nat) (c : Char)
    (hv : is_valid_ean13 code = true) (hi : i < 13)
    (hc : isDigitChar c = true) (hne : c ≠ code.getD i ' ') :
    is_valid_ean13 (code.set i c) = false := by
  unfold is_valid_ean13 at hv
  split at hv
  case isFalse => exact absurd hv (by simp)
  case isTrue hg =>
  rw [Bool.and_eq_true, beq_iff_eq] at hg
  obtain ⟨hlen, hall⟩ := hg
  obtain ⟨c0, c1, c2, c3, c4, c5, c6, c7, c8, c9, c10, c11, c12, rfl⟩ :=
    list_len13 code hlen
  simp only [List.all_cons, List.all_nil, Bool.and_eq_true, Bool.and_true] at hall
  obtain ⟨hd0, hd1, hd2, hd3, hd4, hd5, hd6, hd7, hd8, hd9, hd10, hd11, hd12⟩ := hall
  have hv0 := charVal_lt_of_isDigitChar hd0
  have hv1 := charVal_lt_of_isDigitChar hd1
  have hv2 := charVal_lt_of_isDigitChar hd2
  have hv3 := charVal_lt_of_isDigitChar hd3
  have hv4 := charVal_lt_of_isDigitChar hd4
  have hv5 := charVal_lt_of_isDigitChar hd5
  have hv6 := charVal_lt_of_isDigitChar hd6
  have hv7 := charVal_lt_of_isDigitChar hd7
  have hv8 := charVal_lt_of_isDigitChar hd8
  have hv9 := charVal_lt_of_isDigitChar hd9
  have hv10 := charVal_lt_of_isDigitChar hd10
  have hv11 := charVal_lt_of_isDigitChar hd11
  have hv12 := charVal_lt_of_isDigitChar hd12
  have hvc := charVal_lt_of_isDigitChar hc
  rw [beq_iff_eq,
    show ([c0, c1, c2, c3, c4, c5, c6, c7, c8, c9, c10, c11, c12].take 12)
      = [c0, c1, c2, c3, c4, c5, c6, c7, c8, c9, c10, c11] from rfl,
    show ([c0, c1, c2, c3, c4, c5, c6, c7, c8, c9, c10, c11, c12].getLastD ' ')
      = c12 from rfl] at hv
  simp [ean13_checksum, everyOther] at hv
  have hdAll : ∀ k, k < 13 →
      isDigitChar ([c0, c1, c2, c3, c4, c5, c6, c7, c8, c9, c10, c11, c12].getD k ' ')
        = true := by
    intro k hk
    interval_cases k <;> assumption
  have hnec : charVal c
      ≠ charVal ([c0, c1, c2, c3, c4, c5, c6, c7, c8, c9, c10, c11, c12].getD i ' ') :=
    fun hh => hne (charVal_inj hc (hdAll i hi) hh)
  interval_cases i <;>
    (simp at hnec
     simp [is_valid_ean13, ean13_checksum, everyOther, hd0, hd1, hd2, hd3, hd4,
       hd5, hd6, hd7, hd8, hd9, hd10, hd11, hd12, hc]
     omega)

/-- **C10 witness.** -/
theorem ean13_single_substitution_detected_witness :
    is_valid_ean13 "2900000000421".toList = true
    ∧ (0 : Nat) < 13
    ∧ isDigitChar '0' = true
    ∧ '0' ≠ "2900000000421".toList.getD 0 ' '
    ∧ is_valid_ean13 ("2900000000421".toList.set 0 '0') = false :=
  ⟨by decide, by decide, by decide, by decide,
    ean13_single_substitution_detected "2900000000421".toList 0 '0'
      (by decide) (by decide) (by decide) (by decide)⟩

/-- **C7.**  For every accepted code, `generate_barcode_png` returns the
PNG signature, then an IHDR chunk (width 476 = (95+2·12)·4, height 220, bit
depth 8, color type 2, no compression/filter/interlace bytes set), an IDAT
chunk holding the compressor's output on the raw scanlines, and an empty
IEND chunk, each chunk framed as big-endian length + type + payload +
big-endian CRC32 of type+payload; the raw buffer has 220 scanlines of
1 + 3·476 bytes each starting with filter byte 0, and the pixel at column
`x`, row `y` is black (0,0,0) iff `y ∈ [12, 12+180)` and `x/4 - 12` (in ℤ)
indexes a 1-bit of the pattern, white (255,255,255) otherwise. -/
theorem generate_barcode_png_structure (zc : List Nat → List Nat)
    (crc : List Nat → Nat) (code bits : List Char)
    (h : build_ean13_bits code = some bits) :
    generate_barcode_png zc crc code
      = some (pngSignature
          ++ (be32 13 ++ ihdrType ++ (be32 476 ++ be32 220 ++ [8, 2, 0, 0, 0])
            ++ be32 (crc (ihdrType ++ (be32 476 ++ be32 220 ++ [8, 2, 0, 0, 0])) % 2 ^ 32))
          ++ (be32 (zc (pngScanlines bits)).length ++ idatType ++ zc (pngScanlines bits)
            ++ be32 (crc (idatType ++ zc (pngScanlines bits)) % 2 ^ 32))
          ++ (be32 0 ++ iendType ++ be32 (crc iendType % 2 ^ 32)))
    ∧ (pngScanlines bits).length = 220 * (1 + 3 * 476)
    ∧ (∀ y, y < 220 → (pngScanlines bits).getD (y * (1 + 3 * 476)) 999 = 0)
    ∧ (∀ x y k, x < 476 → y < 220 → k < 3 →
        (pngScanlines bits).getD (y * (1 + 3 * 476) + (1 + 3 * x + k)) 999
          = if (12 ≤ y ∧ y < 12 + 180)
              ∧ 0 ≤ (x : Int) / 4 - 12 ∧ (x : Int) / 4 - 12 < (bits.length : Int)
              ∧ bits.getD ((x : Int) / 4 - 12).toNat ' ' = '1'
            then 0 else 255) := by
  have hb95 := build_ean13_bits_length h
  have h476 : (476 : Nat) = (bits.length + 12 * 2) * 4 := by rw [hb95]
  refine ⟨?_, ?_, ?_, ?_⟩
  · simp only [generate_barcode_png, h, png_chunk]
    rw [hb95]
    norm_num [be32]
  · rw [pngScanlines_length, hb95]
  · intro y hy
    rw [h476]
    have hgd := pngScanlines_getD bits y 0 hy (by omega)
    rw [Nat.add_zero] at hgd
    rw [hgd]
    rfl
  · intro x y k hx hy hk
    rw [h476] at hx ⊢
    rw [pngScanlines_getD bits y (1 + 3 * x + k) hy (by omega),
      pngRow_getD_pixel bits y x k hx hk, pngPixel_getD bits y x k hk]

/-- **C7 witness.** -/
theorem generate_barcode_png_structure_witness :
    build_ean13_bits "2900000000421".toList
        = some ((build_ean13_bits "2900000000421".toList).getD [])
    ∧ (generate_barcode_png (fun l => l) (fun _ => 0) "2900000000421".toList
        = some (pngSignature
            ++ (be32 13 ++ ihdrType ++ (be32 476 ++ be32 220 ++ [8, 2, 0, 0, 0])
              ++ be32 ((fun (_ : List Nat) => 0)
                  (ihdrType ++ (be32 476 ++ be32 220 ++ [8, 2, 0, 0, 0])) % 2 ^ 32))
            ++ (be32 ((fun (l : List Nat) => l)
                  (pngScanlines ((build_ean13_bits "2900000000421".toList).getD []))).length
              ++ idatType
              ++ (fun (l : List Nat) => l)
                  (pngScanlines ((build_ean13_bits "2900000000421".toList).getD []))
              ++ be32 ((fun (_ : List Nat) => 0)
                  (idatType ++ (fun (l : List Nat) => l)
                    (pngScanlines ((build_ean13_bits "2900000000421".toList).getD []))) % 2 ^ 32))
            ++ (be32 0 ++ iendType ++ be32 ((fun (_ : List Nat) => 0) iendType % 2 ^ 32)))
      ∧ (pngScanlines ((build_ean13_bits "2900000000421".toList).getD [])).length
          = 220 * (1 + 3 * 476)
      ∧ (∀ y, y < 220 →
          (pngScanlines ((build_ean13_bits "2900000000421".toList).getD [])).getD
            (y * (1 + 3 * 476)) 999 = 0)
      ∧ (∀ x y k, x < 476 → y < 220 → k < 3 →
          (pngScanlines ((build_ean13_bits "2900000000421".toList).getD [])).getD
            (y * (1 + 3 * 476) + (1 + 3 * x + k)) 999
            = if (12 ≤ y ∧ y < 12 + 180)
                ∧ 0 ≤ (x : Int) / 4 - 12
                ∧ (x : Int) / 4 - 12
                    < (((build_ean13_bits "2900000000421".toList).getD []).length : Int)
                ∧ ((build_ean13_bits "2900000000421".toList).getD []).getD
                    ((x : Int) / 4 - 12).toNat ' ' = '1'
              then 0 else 255)) :=
  ⟨by decide, generate_barcode_png_structure (fun l => l) (fun _ => 0)
    "2900000000421".toList ((build_ean13_bits "2900000000421".toList).getD [])
    (by decide)⟩

/-- **C1 (amended) instantiation check.** -/
theorem encoder_rejects_iff_not_13_digit_string_witness :
    (build_ean13_bits "29000".toList = none
      ↔ ¬("29000".toList.length = 13 ∧ "29000".toList.all isDigitChar = true))
    ∧ (is_valid_ean13 "29000".toList = true
        → (build_ean13_bits "29000".toList).isSome = true) :=
  encoder_rejects_iff_not_13_digit_string "29000".toList

/-- **C2 instantiation check.** -/
theorem breakfast_coffee_isolated_witness :
    get_breakfast_count_total (add_coffee_visit ⟨[], [], [], 1, 1⟩ 1 []).1 2
        = get_breakfast_count_total ⟨[], [], [], 1, 1⟩ 2
    ∧ get_client_breakfast_stats (add_coffee_visit ⟨[], [], [], 1, 1⟩ 1 []).1 2
        = get_client_breakfast_stats ⟨[], [], [], 1, 1⟩ 2
    ∧ get_breakfast_visits (add_coffee_visit ⟨[], [], [], 1, 1⟩ 1 []).1 none none none
        = get_breakfast_visits ⟨[], [], [], 1, 1⟩ none none none
    ∧ get_client_coffee_stats (add_breakfast_visit ⟨[], [], [], 1, 1⟩ 1 []).1 2
        = get_client_coffee_stats ⟨[], [], [], 1, 1⟩ 2
    ∧ get_coffee_visits (add_breakfast_visit ⟨[], [], [], 1, 1⟩ 1 []).1 none none none
        = get_coffee_visits ⟨[], [], [], 1, 1⟩ none none none
    ∧ add_coffee_visit ⟨[], [], [], 1, 1⟩ 1 []
        = (swapCategories (add_breakfast_visit (swapCategories ⟨[], [], [], 1, 1⟩) 1 []).1,
            (add_breakfast_visit (swapCategories ⟨[], [], [], 1, 1⟩) 1 []).2)
    ∧ get_coffee_visits ⟨[], [], [], 1, 1⟩ none none none
        = get_breakfast_visits (swapCategories ⟨[], [], [], 1, 1⟩) none none none
    ∧ get_client_coffee_stats ⟨[], [], [], 1, 1⟩ 1
        = get_client_breakfast_stats (swapCategories ⟨[], [], [], 1, 1⟩) 1 :=
  breakfast_coffee_isolated ⟨[], [], [], 1, 1⟩ 1 2 [] none none none

end CafeMgmt
